import Mathlib

/- Shallow embedding of the local_research multi-agent research workflow:
   the orchestrator graph (agent.py), the report stage with its tool loop
   (research_report.py), the supervisor fan-out/merge protocol, and the
   model-configuration fallback chain (model_config.py). -/

namespace LocalResearch

/-- A tool call requested on an assistant turn: `{name, args, id}`
(args kept opaque as a string). -/
structure ToolCall where
  name : String
  args : String
  id : String
  deriving DecidableEq, Repr

/-- An assistant turn: free-text content plus the tool calls it carries. -/
structure AIMessage where
  content : String
  tool_calls : List ToolCall
  deriving DecidableEq, Repr

/-- A tool-result turn (langchain ToolMessage): content, tool name,
and the id of the call it answers. -/
structure ToolMessage where
  content : String
  name : String
  tool_call_id : String
  deriving DecidableEq, Repr

/-- The value held by the `final_report` state field. research_report.py
first stores the whole assistant message there (final_report_generation),
then on the tool path overwrites it with the message's text content
(final_report_tools). -/
inductive ReportValue where
  | msg (m : AIMessage)
  | text (t : String)
  deriving DecidableEq, Repr

/-- An entry of the `messages` channel: a plain string message or a
tool-result message. -/
inductive MessageItem where
  | strMsg (s : String)
  | toolMsg (m : ToolMessage)
  deriving DecidableEq, Repr

/-- The shared AgentState as read and written by agent.py and
research_report.py: `messages`, `research_brief`, `notes`, `final_report`.
Absent optional fields are `none`; `state.get("notes", [])` makes the
absent notes list `[]`. -/
structure AgentState where
  messages : List MessageItem
  research_brief : Option String
  notes : List String
  final_report : Option ReportValue

/-- An MCP tool: a name and an invocation that may fail with an error. -/
structure MCPTool where
  name : String
  ainvoke : String → Except String String

/-- Observable calls made on the external gateways: fetching the tool
list (`client.get_tools()`), invoking the chat model, invoking one tool. -/
inductive Event where
  | getTools
  | generate
  | invoke (name : String) (args : String)
  deriving DecidableEq, Repr

/-- The external collaborators of the report stage: the MCP tool server
(tool list) and the writer model (prompt template and generation),
plus `get_today_str`. -/
structure Gateways where
  get_tools : List MCPTool
  format_prompt : String → String → String → String
  generate : String → List MCPTool → AIMessage
  today : String

/-- Exceptions escaping the report-stage tool loop: a `KeyError` from
`tools_by_name[tool_call["name"]]`, or an error raised by
`tool.ainvoke(...)` itself. -/
inductive ReportError where
  | keyError (name : String)
  | toolError (e : String)
  deriving DecidableEq, Repr

/-- A node's return value: `Command(goto=..., update=...)`. The update
touches at most the `final_report` and `messages` channels (`none` /
`[]` meaning the channel is untouched). -/
structure Command where
  goto : String
  set_final_report : Option ReportValue
  add_messages : List MessageItem

/-- Merge a node's partial update into the shared state: messages are
accumulated (append), `final_report` is replaced when the update sets it. -/
def applyCommand (s : AgentState) (c : Command) : AgentState :=
  ⟨s.messages ++ c.add_messages, s.research_brief, s.notes,
    match c.set_final_report with
    | none => s.final_report
    | some v => some v⟩

/-- `tools_by_name = {tool.name: tool for tool in tools}`: a Python dict
comprehension keeps the last binding of a duplicated key, so lookup
finds the last tool with the given name. -/
def tools_by_name (tools : List MCPTool) (n : String) : Option MCPTool :=
  tools.reverse.find? (fun t => t.name == n)

/-- The `for tool_call in tool_calls` loop of `execute_tools`
(research_report.py lines 105-110): resolve each call's name in
`tools_by_name` (a bare dict index: a missing name raises KeyError) and
`await tool.ainvoke(...)` (an error propagates; there is no try/except).
Returns the invocation events that happened and either the list of
observations or the first exception. -/
def invoke_loop (lookup : String → Option MCPTool) :
    List ToolCall → List Event × Except ReportError (List String)
  | [] => ([], Except.ok [])
  | c :: rest =>
    match lookup c.name with
    | none => ([], Except.error (ReportError.keyError c.name))
    | some t =>
      match t.ainvoke c.args with
      | Except.error e =>
        ([Event.invoke c.name c.args], Except.error (ReportError.toolError e))
      | Except.ok obs =>
        let r := invoke_loop lookup rest
        (Event.invoke c.name c.args :: r.1, r.2.map (fun os => obs :: os))

/-- `execute_tools` (research_report.py lines 98-122): re-fetch the tool
list, run the calls sequentially, then zip observations with the calls
into ToolMessages carrying each call's name and id. -/
def execute_tools (gw : Gateways) (tool_calls : List ToolCall) :
    List Event × Except ReportError (List ToolMessage) :=
  let tools := gw.get_tools
  let r := invoke_loop (tools_by_name tools) tool_calls
  (Event.getTools :: r.1,
    r.2.map (fun observations =>
      (observations.zip tool_calls).map (fun p => ⟨p.1, p.2.name, p.2.id⟩)))

/-- `final_report_tools` (research_report.py lines 75-132): if the stored
`final_report` has no `tool_calls` attribute (it is absent, or already a
plain string) or the list is empty, go to END with an empty update;
otherwise execute the calls and, on success, overwrite `final_report`
with the message's text content and append the tool messages. -/
def final_report_tools (gw : Gateways) (state : AgentState) :
    List Event × Except ReportError Command :=
  match state.final_report with
  | some (ReportValue.msg m) =>
    if m.tool_calls.isEmpty then
      ([], Except.ok ⟨"__end__", none, []⟩)
    else
      let r := execute_tools gw m.tool_calls
      (r.1, r.2.map (fun tool_messages =>
        ⟨"__end__", some (ReportValue.text m.content),
          tool_messages.map MessageItem.toolMsg⟩))
  | _ => ([], Except.ok ⟨"__end__", none, []⟩)

/-- The assistant turn produced by `final_report_generation`: format the
report prompt from brief, joined notes and date, bind the fetched tools
and invoke the writer model. -/
def gen_message (gw : Gateways) (state : AgentState) : AIMessage :=
  let findings := String.intercalate "\n" state.notes
  let prompt := gw.format_prompt (state.research_brief.getD "") findings gw.today
  gw.generate prompt gw.get_tools

/-- `final_report_generation` (research_report.py lines 41-73): fetch the
tools, invoke the model once, store the whole assistant message in
`final_report`, append a text message, and go to `final_report_tools`. -/
def final_report_generation (gw : Gateways) (state : AgentState) :
    List Event × Command :=
  let final_report := gen_message gw state
  ([Event.getTools, Event.generate],
    ⟨"final_report_tools", some (ReportValue.msg final_report),
      [MessageItem.strMsg ("Here is the final report: " ++ final_report.content)]⟩)

/-- Nodes of the report subgraph built by `final_report_builder`. -/
inductive RNode where
  | start
  | generation
  | tools
  | done
  deriving DecidableEq, Repr

/-- Resolve a `Command.goto` target name to a node of the report
subgraph (`"__end__"` and anything unknown terminate). -/
def node_of_name : String → RNode
  | "final_report_generation" => RNode.generation
  | "final_report_tools" => RNode.tools
  | _ => RNode.done

/-- One step of the report subgraph: the static edge START →
final_report_generation, each node's `Command(goto=...)`, and the static
edge final_report_tools → END. `none` means the graph has terminated. -/
def report_step (gw : Gateways) :
    RNode → AgentState → Except ReportError (Option (RNode × AgentState))
  | RNode.start, s => Except.ok (some (RNode.generation, s))
  | RNode.generation, s =>
    let g := final_report_generation gw s
    Except.ok (some (node_of_name g.2.goto, applyCommand s g.2))
  | RNode.tools, s =>
    (final_report_tools gw s).2.map
      (fun c => some (node_of_name c.goto, applyCommand s c))
  | RNode.done, _ => Except.ok none

/-- A complete run of the compiled report subgraph `research_report`:
START → final_report_generation → final_report_tools → END, returning
the gateway events, the node updates that were applied, and the final
state (or the exception that aborted the run). -/
def run_report (gw : Gateways) (s : AgentState) :
    List Event × List Command × Except ReportError AgentState :=
  let g := final_report_generation gw s
  let s1 := applyCommand s g.2
  let r := final_report_tools gw s1
  match r.2 with
  | Except.ok c2 => (g.1 ++ r.1, [g.2, c2], Except.ok (applyCommand s1 c2))
  | Except.error e => (g.1 ++ r.1, [g.2], Except.error e)

/-- The writes a run performs on the `final_report` channel, in order. -/
def fr_writes (cs : List Command) : List ReportValue :=
  (cs.map (fun c => c.set_final_report.toList)).flatten

/-- The text a reader extracts from the `final_report` field (an
assistant message contributes its content). -/
def reportText : ReportValue → String
  | ReportValue.msg m => m.content
  | ReportValue.text t => t

/-- Truthiness of Python `state.get("research_brief")`: `None` and the
empty string are falsy. -/
def pyTruthy : Option String → Bool
  | none => false
  | some s => s != ""

/-- `route_after_scoping` (agent.py lines 23-37). -/
def route_after_scoping (state : AgentState) : String :=
  let research_brief := state.research_brief
  if pyTruthy research_brief then "supervisor_subgraph" else "__end__"

/-- The scope and supervisor subgraphs, imported by agent.py from
modules outside the embedded core; modelled as opaque state
transformers. -/
structure Stages where
  scope : AgentState → AgentState
  supervisor : AgentState → AgentState

/-- A complete run of the compiled `deep_researcher_builder` graph
(agent.py lines 41-65): START → scope_subgraph, then the conditional
edge keyed by `route_after_scoping` (`"__end__" ↦ END`,
`"supervisor_subgraph" ↦ supervisor_subgraph`), then
supervisor_subgraph → report_subgraph → END. Returns the list of
invoked node names and the outcome. -/
def agent_run (st : Stages) (gw : Gateways) (s0 : AgentState) :
    List String × Except ReportError AgentState :=
  let s1 := st.scope s0
  if route_after_scoping s1 = "supervisor_subgraph" then
    let s2 := st.supervisor s1
    (["scope_subgraph", "supervisor_subgraph", "report_subgraph"],
      (run_report gw s2).2.2)
  else
    (["scope_subgraph"], Except.ok s1)

/-- Modelled from the spec: the supervisor stage's fan-out and merge
(research_supervisor.py is not among the embedded sources; only its
callers are). One dispatched research thread: its sub-task description
and the ordered note sequence it produces on completion. -/
structure ResearchThread where
  sub_task : String
  run_notes : List String

/-- Modelled from the spec: the completion events of a concurrent
execution. `order` lists the dispatch indices of the threads in the
order they complete; each completion delivers the thread's final notes
tagged with its dispatch index. -/
def arrivals (threads : List ResearchThread) (order : List Nat) :
    List (Nat × List String) :=
  order.map (fun i => (i, (threads[i]?.map ResearchThread.run_notes).getD []))

/-- The notes recorded for dispatch slot `i` once all completions are in. -/
def slot_notes (arr : List (Nat × List String)) (i : Nat) : List String :=
  match arr.find? (fun p => p.1 == i) with
  | some p => p.2
  | none => []

/-- Modelled from the spec: after the barrier (all threads complete,
whatever `order` they completed in), concatenate the threads' notes in
dispatch order into the shared notes sequence. -/
def supervise_merge (threads : List ResearchThread) (order : List Nat) :
    List String :=
  ((List.range threads.length).map (slot_notes (arrivals threads order))).flatten

/-- A configured chat model, by the constructor that produced it
(model_config.py builds ChatOpenAI / ChatOllama instances directly for
local providers and defers to langchain's `init_chat_model` otherwise). -/
inductive ChatModel where
  | chatOpenAI (base_url : String) (model : String) (api_key : String)
  | chatOllama (base_url : String) (model : String)
  | initChat (model : String)
  deriving DecidableEq, Repr

/-- Index of the first occurrence of `sep` in a character list. -/
def findSub (sep : List Char) : List Char → Option Nat
  | [] => if sep.isPrefixOf ([] : List Char) then some 0 else none
  | c :: rest =>
    if sep.isPrefixOf (c :: rest) then some 0
    else (findSub sep rest).map (fun i => i + 1)

/-- Python `s.split(sep, 1)` when `sep` occurs in `s`: the parts before
and after the first occurrence. -/
def splitOnce (s sep : String) : Option (String × String) :=
  (findSub sep.data s.data).map
    (fun i => (⟨s.data.take i⟩, ⟨s.data.drop (i + sep.data.length)⟩))

/-- Python `s.rsplit(sep, 1)` when `sep` occurs in `s`: the parts before
and after the last occurrence (found as the first occurrence from the
right). -/
def rsplitOnce (s sep : String) : Option (String × String) :=
  (findSub (sep.data.reverse) (s.data.reverse)).map
    (fun i =>
      (⟨(s.data.reverse.drop (i + sep.data.length)).reverse⟩,
        ⟨(s.data.reverse.take i).reverse⟩))

/-- Python `int(s)`: an optional sign followed by at least one digit. -/
def pyInt? (s : String) : Option Int :=
  match s.data with
  | '-' :: ds =>
    if ds ≠ [] ∧ ds.all Char.isDigit
    then some (-(Int.ofNat (String.toNat! ⟨ds⟩))) else none
  | '+' :: ds =>
    if ds ≠ [] ∧ ds.all Char.isDigit
    then some (Int.ofNat (String.toNat! ⟨ds⟩)) else none
  | ds =>
    if ds ≠ [] ∧ ds.all Char.isDigit
    then some (Int.ofNat (String.toNat! ⟨ds⟩)) else none

/-- `parse_model_string` (model_config.py lines 27-53): split on the
first `"://"` when present, otherwise on the first `":"`; a string with
neither separator raises ValueError. -/
def parse_model_string (model_string : String) : Except String (String × String) :=
  match splitOnce model_string "://" with
  | some (provider, model_info) => Except.ok (provider, model_info)
  | none =>
    match splitOnce model_string ":" with
    | some (provider, model) => Except.ok (provider, model)
    | none => Except.error ("Invalid model string format: " ++ model_string)

/-- `create_local_chat_model` (model_config.py lines 56-113): parse
`host:port/model` (first `/` separates host:port from the model name,
last `:` separates host from port, the port must parse as an int) and
build the provider's client; for ollama, fall back to an
OpenAI-compatible client when langchain_ollama is not importable. -/
def create_local_chat_model (ollama_available : Bool)
    (provider model_info : String) : Except String ChatModel :=
  match splitOnce model_info "/" with
  | none => Except.error ("Local model info must include model name: " ++ model_info)
  | some (host_port, model_name) =>
    match rsplitOnce host_port ":" with
    | none => Except.error ("Local model info must include port: " ++ model_info)
    | some (host, port) =>
      match pyInt? port with
      | none => Except.error ("Invalid port number: " ++ port)
      | some _ =>
        if provider = "lmstudio" then
          Except.ok (ChatModel.chatOpenAI
            ("http://" ++ host ++ ":" ++ port ++ "/v1") model_name "lm-studio")
        else if provider = "ollama" then
          if ollama_available then
            Except.ok (ChatModel.chatOllama
              ("http://" ++ host ++ ":" ++ port) model_name)
          else
            Except.ok (ChatModel.chatOpenAI
              ("http://" ++ host ++ ":" ++ port ++ "/v1") model_name "ollama")
        else
          Except.error ("Unsupported local provider: " ++ provider)

/-- The body of each `try` block of `init_chat_model_from_env`
(model_config.py lines 142-150 and 157-161, textually identical): parse
the string, build a local model for the lmstudio/ollama providers,
otherwise defer to langchain's `init_chat_model` (modelled as the
fallible argument `ic`). -/
def try_init (ic : String → Except String ChatModel) (ollama_available : Bool)
    (s : String) : Except String ChatModel :=
  match parse_model_string s with
  | Except.error e => Except.error e
  | Except.ok (provider, model_info) =>
    if provider = "lmstudio" ∨ provider = "ollama" then
      create_local_chat_model ollama_available provider model_info
    else
      ic s

/-- `init_chat_model_from_env` (model_config.py lines 116-165): read the
model string from the environment (defaulting to `fallback_model`), try
it; on any exception try `fallback_model`; on a second exception call
`init_chat_model` on the hard-coded `"openai:gpt-4o"` with no further
handler. -/
def init_chat_model_from_env (getenv : String → Option String)
    (ic : String → Except String ChatModel) (ollama_available : Bool)
    (env_var : String) (fallback_model : String) : Except String ChatModel :=
  let model_string := (getenv env_var).getD fallback_model
  match try_init ic ollama_available model_string with
  | Except.ok m => Except.ok m
  | Except.error _ =>
    match try_init ic ollama_available fallback_model with
    | Except.ok m => Except.ok m
    | Except.error _ => ic "openai:gpt-4o"

/- Concrete fixtures used to exercise the definitions at explicit inputs. -/

/-- A filesystem tool whose invocation succeeds. -/
def wtool_write : MCPTool := ⟨"write_file", fun _ => Except.ok "file written"⟩

/-- A second tool whose invocation succeeds. -/
def wtool_read : MCPTool := ⟨"read_file", fun _ => Except.ok "file contents"⟩

/-- A tool whose invocation raises. -/
def wtool_broken : MCPTool := ⟨"write_file", fun _ => Except.error "disk full"⟩

/-- A report turn carrying two tool calls. -/
def wmsg_two_calls : AIMessage :=
  ⟨"report body", [⟨"write_file", "argsA", "call1"⟩, ⟨"read_file", "argsB", "call2"⟩]⟩

/-- Gateways whose model emits a report turn carrying two tool calls,
both resolvable and succeeding. -/
def wgw_two_calls : Gateways :=
  ⟨[wtool_write, wtool_read], fun b f d => b ++ f ++ d,
    fun _ _ => wmsg_two_calls, "2026-10-12"⟩

/-- A report turn with one tool call aimed at `wtool_broken`. -/
def wmsg_one_call : AIMessage := ⟨"report body", [⟨"write_file", "argsA", "call1"⟩]⟩

/-- A report turn naming a tool that resolves against no tool list here. -/
def wmsg_unresolved : AIMessage := ⟨"report body", [⟨"save_file", "argsA", "call1"⟩]⟩

/-- Gateways whose model emits a report turn with one call whose
invocation raises. -/
def wgw_tool_raises : Gateways :=
  ⟨[wtool_broken], fun b f d => b ++ f ++ d, fun _ _ => wmsg_one_call, "2026-10-12"⟩

/-- Gateways whose model emits a report turn naming a tool absent from
the tool list. -/
def wgw_unresolved : Gateways :=
  ⟨[wtool_write], fun b f d => b ++ f ++ d, fun _ _ => wmsg_unresolved, "2026-10-12"⟩

/-- Gateways whose model emits a report turn with no tool calls. -/
def wgw_plain : Gateways :=
  ⟨[wtool_write], fun b f d => b ++ f ++ d,
    fun _ _ => ⟨"plain report", []⟩, "2026-10-12"⟩

/-- A state entering the report stage after supervision. -/
def wstate_briefed : AgentState := ⟨[], some "brief", ["n1", "n2"], none⟩

/-- A state holding a generated report turn with two tool calls, as seen
by `final_report_tools`. -/
def wstate_turn : AgentState :=
  ⟨[], some "brief", [], some (ReportValue.msg wmsg_two_calls)⟩

/-- A state holding the turn whose tool invocation raises. -/
def wstate_raises_turn : AgentState :=
  ⟨[], some "brief", [], some (ReportValue.msg wmsg_one_call)⟩

/-- A state holding the turn with the unresolved tool name. -/
def wstate_unresolved_turn : AgentState :=
  ⟨[], some "brief", [], some (ReportValue.msg wmsg_unresolved)⟩

/-- The state a successful two-call report run ends in, starting from
`wstate_briefed` under `wgw_two_calls`. -/
def wstate_after_report : AgentState :=
  ⟨[MessageItem.strMsg "Here is the final report: report body",
    MessageItem.toolMsg ⟨"file written", "write_file", "call1"⟩,
    MessageItem.toolMsg ⟨"file contents", "read_file", "call2"⟩],
    some "brief", ["n1", "n2"], some (ReportValue.text "report body")⟩

/-- Stages whose scoping asks for clarification (produces no brief). -/
def wstages_clarify : Stages :=
  ⟨fun s => ⟨s.messages ++ [MessageItem.strMsg "Which aspect?"], none, s.notes, s.final_report⟩,
    fun s => s⟩

/-- Two states agreeing on the brief and differing everywhere else. -/
def wstate_a : AgentState :=
  ⟨[MessageItem.strMsg "hello"], some "brief", ["na"], none⟩

/-- See `wstate_a`. -/
def wstate_b : AgentState :=
  ⟨[], some "brief", ["nb1", "nb2"], some (ReportValue.text "old")⟩

/-- Three research threads for the merge fixture. -/
def wthreads : List ResearchThread := [⟨"t1", ["a", "b"]⟩, ⟨"t2", ["c"]⟩, ⟨"t3", ["d"]⟩]

/-- An `init_chat_model` backend that always raises. -/
def wic_boom : String → Except String ChatModel := fun _ => Except.error "boom"

/- Helper lemmas. -/

theorem zip_map_snd_eq {α β γ : Type} (l₁ : List α) (l₂ : List β) (f : β → γ)
    (h : l₁.length = l₂.length) :
    (l₁.zip l₂).map (fun p => f p.2) = l₂.map f := by
  induction l₁ generalizing l₂ with
  | nil => cases l₂ with
    | nil => rfl
    | cons b bs => simp at h
  | cons a as ih => cases l₂ with
    | nil => simp at h
    | cons b bs =>
      simp only [List.zip_cons_cons, List.map_cons]
      exact congrArg (f b :: ·) (ih bs (Nat.succ_injective h))

theorem invoke_loop_all_ok (lookup : String → Option MCPTool) (calls : List ToolCall)
    (h : ∀ c ∈ calls, ∃ t o, lookup c.name = some t ∧ t.ainvoke c.args = Except.ok o) :
    ∃ obs, invoke_loop lookup calls =
      (calls.map (fun c => Event.invoke c.name c.args), Except.ok obs) ∧
      obs.length = calls.length := by
  induction calls with
  | nil => exact ⟨[], rfl, rfl⟩
  | cons c cs ih =>
    obtain ⟨t, o, hl, ho⟩ := h c (by simp)
    obtain ⟨obs, hr, hlen⟩ := ih (fun c' hc' => h c' (by simp [hc']))
    refine ⟨o :: obs, ?_, by simp [hlen]⟩
    simp [invoke_loop, hl, ho, hr, Except.map]

theorem invoke_loop_tool_error (lookup : String → Option MCPTool)
    (pre : List ToolCall) (c : ToolCall) (post : List ToolCall)
    (t : MCPTool) (e : String)
    (hpre : ∀ c' ∈ pre, ∃ t' o, lookup c'.name = some t' ∧ t'.ainvoke c'.args = Except.ok o)
    (hl : lookup c.name = some t) (he : t.ainvoke c.args = Except.error e) :
    invoke_loop lookup (pre ++ c :: post) =
      (pre.map (fun c' => Event.invoke c'.name c'.args) ++ [Event.invoke c.name c.args],
        Except.error (ReportError.toolError e)) := by
  induction pre with
  | nil => simp [invoke_loop, hl, he]
  | cons p ps ih =>
    obtain ⟨t', o, hpl, hpo⟩ := hpre p (by simp)
    have := ih (fun c' hc' => hpre c' (by simp [hc']))
    simp [invoke_loop, hpl, hpo, this, Except.map]

theorem invoke_loop_key_error (lookup : String → Option MCPTool)
    (pre : List ToolCall) (c : ToolCall) (post : List ToolCall)
    (hpre : ∀ c' ∈ pre, ∃ t' o, lookup c'.name = some t' ∧ t'.ainvoke c'.args = Except.ok o)
    (hl : lookup c.name = none) :
    invoke_loop lookup (pre ++ c :: post) =
      (pre.map (fun c' => Event.invoke c'.name c'.args),
        Except.error (ReportError.keyError c.name)) := by
  induction pre with
  | nil => simp [invoke_loop, hl]
  | cons p ps ih =>
    obtain ⟨t', o, hpl, hpo⟩ := hpre p (by simp)
    have := ih (fun c' hc' => hpre c' (by simp [hc']))
    simp [invoke_loop, hpl, hpo, this, Except.map]

theorem invoke_loop_events_are_invokes (lookup : String → Option MCPTool)
    (calls : List ToolCall) :
    ∀ e ∈ (invoke_loop lookup calls).1, ∃ n a, e = Event.invoke n a := by
  induction calls with
  | nil => intro e he; simp [invoke_loop] at he
  | cons c cs ih =>
    intro e he
    cases hl : lookup c.name with
    | none => simp [invoke_loop, hl] at he
    | some t =>
      cases ho : t.ainvoke c.args with
      | error err =>
        simp [invoke_loop, hl, ho] at he
        exact ⟨c.name, c.args, he⟩
      | ok o =>
        simp [invoke_loop, hl, ho] at he
        cases he with
        | inl h => exact ⟨c.name, c.args, h⟩
        | inr h => exact ih e h

theorem final_report_tools_goto (gw : Gateways) (s : AgentState) (c : Command)
    (h : (final_report_tools gw s).2 = Except.ok c) : c.goto = "__end__" := by
  cases hfr : s.final_report with
  | none => simp [final_report_tools, hfr] at h; simp [← h]
  | some v =>
    cases v with
    | text t => simp [final_report_tools, hfr] at h; simp [← h]
    | msg m =>
      by_cases hmt : m.tool_calls.isEmpty
      · simp [final_report_tools, hfr, hmt] at h; simp [← h]
      · simp [final_report_tools, hfr, hmt] at h
        cases hex : (execute_tools gw m.tool_calls).2 with
        | error e => rw [hex] at h; simp [Except.map] at h
        | ok msgs => rw [hex] at h; simp [Except.map] at h; simp [← h]

theorem final_report_tools_ok_cases (gw : Gateways) (s : AgentState) (c : Command)
    (h : (final_report_tools gw s).2 = Except.ok c) :
    c.set_final_report = none ∨
      ∃ m, s.final_report = some (ReportValue.msg m) ∧ m.tool_calls ≠ [] ∧
        c.set_final_report = some (ReportValue.text m.content) := by
  cases hfr : s.final_report with
  | none => simp [final_report_tools, hfr] at h; simp [← h]
  | some v =>
    cases v with
    | text t => simp [final_report_tools, hfr] at h; simp [← h]
    | msg m =>
      by_cases hmt : m.tool_calls.isEmpty
      · simp [final_report_tools, hfr, hmt] at h; simp [← h]
      · simp [final_report_tools, hfr, hmt] at h
        cases hex : (execute_tools gw m.tool_calls).2 with
        | error e => rw [hex] at h; simp [Except.map] at h
        | ok msgs =>
          rw [hex] at h; simp [Except.map] at h
          refine Or.inr ⟨m, rfl, ?_, by simp [← h]⟩
          simpa [List.isEmpty_iff] using hmt

theorem generate_not_in_tool_node_events (gw : Gateways) (s : AgentState) :
    Event.generate ∉ (final_report_tools gw s).1 := by
  cases hfr : s.final_report with
  | none => simp [final_report_tools, hfr]
  | some v =>
    cases v with
    | text t => simp [final_report_tools, hfr]
    | msg m =>
      by_cases hmt : m.tool_calls.isEmpty
      · simp [final_report_tools, hfr, hmt]
      · simp only [final_report_tools, hfr, hmt]
        intro hmem
        simp [execute_tools, List.mem_cons] at hmem
        obtain ⟨n, a, hna⟩ :=
          invoke_loop_events_are_invokes (tools_by_name gw.get_tools) m.tool_calls _ hmem
        exact absurd hna (by simp)

theorem applyCommand_final_report_none (s : AgentState) (c : Command)
    (h : c.set_final_report = none) :
    (applyCommand s c).final_report = s.final_report := by
  simp [applyCommand, h]

theorem applyCommand_final_report_some (s : AgentState) (c : Command) (v : ReportValue)
    (h : c.set_final_report = some v) :
    (applyCommand s c).final_report = some v := by
  simp [applyCommand, h]

theorem run_report_events (gw : Gateways) (s : AgentState) :
    (run_report gw s).1 = Event.getTools :: Event.generate ::
      (final_report_tools gw (applyCommand s (final_report_generation gw s).2)).1 := by
  simp only [run_report]
  cases h : (final_report_tools gw (applyCommand s (final_report_generation gw s).2)).2 with
  | ok c2 => simp [final_report_generation]
  | error e => simp [final_report_generation]

/- Claim theorems. -/

/-- C1: for every state produced by the scoping stage, the orchestrator
routes to the supervisor stage iff the state's research_brief is
non-empty; with an empty or absent brief the run terminates right after
scoping (the clarification outcome) and neither the supervisor nor the
report subgraph is ever invoked. -/
theorem scoping_routes_to_supervisor_iff_brief_nonempty
    (st : Stages) (gw : Gateways) (s0 : AgentState) :
    (route_after_scoping (st.scope s0) = "supervisor_subgraph" ↔
      pyTruthy (st.scope s0).research_brief = true) ∧
    (pyTruthy (st.scope s0).research_brief = false →
      agent_run st gw s0 = (["scope_subgraph"], Except.ok (st.scope s0)) ∧
      "supervisor_subgraph" ∉ (agent_run st gw s0).1 ∧
      "report_subgraph" ∉ (agent_run st gw s0).1) := by
  have hiff : route_after_scoping (st.scope s0) = "supervisor_subgraph" ↔
      pyTruthy (st.scope s0).research_brief = true := by
    unfold route_after_scoping
    cases hb : pyTruthy (st.scope s0).research_brief <;> simp [hb]
  refine ⟨hiff, fun hb => ?_⟩
  have hroute : route_after_scoping (st.scope s0) ≠ "supervisor_subgraph" := by
    intro hcontra
    rw [hiff.mp hcontra] at hb
    exact absurd hb (by simp)
  have hrun : agent_run st gw s0 = (["scope_subgraph"], Except.ok (st.scope s0)) := by
    simp [agent_run, hroute]
  exact ⟨hrun, by simp [hrun], by simp [hrun]⟩

/-- Witness for C1 at a concrete input: a scoping stage that asks a
clarifying question (no brief) makes the run stop after the scope node. -/
theorem scoping_routes_witness :
    agent_run wstages_clarify wgw_plain wstate_briefed =
      (["scope_subgraph"], Except.ok (wstages_clarify.scope wstate_briefed)) ∧
    "supervisor_subgraph" ∉ (agent_run wstages_clarify wgw_plain wstate_briefed).1 := by
  have h := (scoping_routes_to_supervisor_iff_brief_nonempty
    wstages_clarify wgw_plain wstate_briefed).2 rfl
  exact ⟨h.1, h.2.1⟩

/-- C9: the post-scoping routing decision depends only on the
research_brief field: two states agreeing on it route identically. -/
theorem route_after_scoping_depends_only_on_brief (s1 s2 : AgentState)
    (h : s1.research_brief = s2.research_brief) :
    route_after_scoping s1 = route_after_scoping s2 := by
  unfold route_after_scoping
  rw [h]

/-- Witness for C9: two states sharing the brief but differing on
messages, notes and finalReport route identically. -/
theorem route_depends_witness :
    route_after_scoping wstate_a = route_after_scoping wstate_b :=
  route_after_scoping_depends_only_on_brief wstate_a wstate_b rfl

/-- C2: when the generated report turn carries a non-empty list of tool
calls that all resolve and succeed, the tool node invokes them
sequentially in exactly their listed order, and the resulting
ToolMessage sequence has the same length and order, each result carrying
the matching call's name and tool_call_id. -/
theorem report_tool_results_preserve_call_order
    (gw : Gateways) (s : AgentState) (m : AIMessage)
    (hfr : s.final_report = some (ReportValue.msg m))
    (hne : m.tool_calls ≠ [])
    (hok : ∀ c ∈ m.tool_calls, ∃ t o,
      tools_by_name gw.get_tools c.name = some t ∧ t.ainvoke c.args = Except.ok o) :
    ∃ msgs : List ToolMessage,
      (final_report_tools gw s).2 = Except.ok
        ⟨"__end__", some (ReportValue.text m.content), msgs.map MessageItem.toolMsg⟩ ∧
      msgs.length = m.tool_calls.length ∧
      msgs.map ToolMessage.name = m.tool_calls.map ToolCall.name ∧
      msgs.map ToolMessage.tool_call_id = m.tool_calls.map ToolCall.id ∧
      (final_report_tools gw s).1 = Event.getTools ::
        m.tool_calls.map (fun c => Event.invoke c.name c.args) := by
  obtain ⟨obs, hloop, hlen⟩ := invoke_loop_all_ok (tools_by_name gw.get_tools) m.tool_calls hok
  have hmt : m.tool_calls.isEmpty = false := by simpa [List.isEmpty_iff] using hne
  refine ⟨(obs.zip m.tool_calls).map (fun p => ⟨p.1, p.2.name, p.2.id⟩), ?_, ?_, ?_, ?_, ?_⟩
  · simp [final_report_tools, hfr, hmt, execute_tools, hloop, Except.map]
  · simp [List.length_zip, hlen]
  · simp only [List.map_map]
    exact zip_map_snd_eq obs m.tool_calls ToolCall.name hlen
  · simp only [List.map_map]
    exact zip_map_snd_eq obs m.tool_calls ToolCall.id hlen
  · simp [final_report_tools, hfr, hmt, execute_tools, hloop]

/-- Witness for C2: two succeeding tool calls at a concrete input. -/
theorem report_tool_order_witness :
    ∃ msgs : List ToolMessage,
      (final_report_tools wgw_two_calls wstate_turn).2 = Except.ok
        ⟨"__end__", some (ReportValue.text wmsg_two_calls.content),
          msgs.map MessageItem.toolMsg⟩ ∧
      msgs.length = wmsg_two_calls.tool_calls.length ∧
      msgs.map ToolMessage.name = wmsg_two_calls.tool_calls.map ToolCall.name ∧
      msgs.map ToolMessage.tool_call_id = wmsg_two_calls.tool_calls.map ToolCall.id ∧
      (final_report_tools wgw_two_calls wstate_turn).1 = Event.getTools ::
        wmsg_two_calls.tool_calls.map (fun c => Event.invoke c.name c.args) := by
  refine report_tool_results_preserve_call_order wgw_two_calls wstate_turn wmsg_two_calls
    rfl (by simp [wmsg_two_calls]) ?_
  intro c hc
  simp [wmsg_two_calls] at hc
  rcases hc with rfl | rfl
  · exact ⟨wtool_write, "file written", rfl, rfl⟩
  · exact ⟨wtool_read, "file contents", rfl, rfl⟩

/-- C3 counterexample: a tool invocation that raises is not recorded as
that call's ToolResult content — the exception aborts the whole report
stage, and the generated report text is never installed in
finalReport. -/
theorem tool_error_aborts_counterexample :
    (run_report wgw_tool_raises wstate_briefed).2.2 =
      Except.error (ReportError.toolError "disk full") ∧
    fr_writes (run_report wgw_tool_raises wstate_briefed).2.1 =
      [ReportValue.msg wmsg_one_call] :=
  ⟨rfl, rfl⟩

/-- C3 amended: a tool invocation error propagates out of
`execute_tools` (there is no try/except): the tool node fails with that
error, no ToolResult is produced for any call, later calls never run,
and the node's final_report/messages update is never applied. -/
theorem tool_invocation_error_aborts_tool_node
    (gw : Gateways) (s : AgentState) (m : AIMessage)
    (pre post : List ToolCall) (c : ToolCall) (t : MCPTool) (e : String)
    (hfr : s.final_report = some (ReportValue.msg m))
    (hcalls : m.tool_calls = pre ++ c :: post)
    (hpre : ∀ c' ∈ pre, ∃ t' o,
      tools_by_name gw.get_tools c'.name = some t' ∧ t'.ainvoke c'.args = Except.ok o)
    (hl : tools_by_name gw.get_tools c.name = some t)
    (he : t.ainvoke c.args = Except.error e) :
    (final_report_tools gw s).2 = Except.error (ReportError.toolError e) ∧
    (final_report_tools gw s).1 = Event.getTools ::
      (pre.map (fun c' => Event.invoke c'.name c'.args) ++ [Event.invoke c.name c.args]) := by
  have hloop := invoke_loop_tool_error (tools_by_name gw.get_tools) pre c post t e hpre hl he
  have hmt : m.tool_calls.isEmpty = false := by simp [hcalls]
  constructor
  · simp [final_report_tools, hfr, hmt, execute_tools, hcalls, hloop, Except.map]
  · simp [final_report_tools, hfr, hmt, execute_tools, hcalls, hloop]

/-- Witness for the amended C3 at a concrete input. -/
theorem tool_invocation_error_witness :
    (final_report_tools wgw_tool_raises wstate_raises_turn).2 =
      Except.error (ReportError.toolError "disk full") ∧
    (final_report_tools wgw_tool_raises wstate_raises_turn).1 =
      Event.getTools :: [Event.invoke "write_file" "argsA"] := by
  have h := tool_invocation_error_aborts_tool_node wgw_tool_raises wstate_raises_turn
    wmsg_one_call [] [] ⟨"write_file", "argsA", "call1"⟩ wtool_broken "disk full"
    rfl rfl (by intro c' hc'; simp at hc') rfl rfl
  exact ⟨h.1, h.2⟩

/-- C4 counterexample: a tool call naming a tool absent from the list is
not fatal "only for that specific call" — the KeyError aborts the whole
report stage and the generated report text is never installed in
finalReport. -/
theorem unresolved_name_aborts_counterexample :
    (run_report wgw_unresolved wstate_briefed).2.2 =
      Except.error (ReportError.keyError "save_file") ∧
    fr_writes (run_report wgw_unresolved wstate_briefed).2.1 =
      [ReportValue.msg wmsg_unresolved] :=
  ⟨rfl, rfl⟩

/-- C4 amended: an unresolved tool name raises a KeyError from the bare
dict lookup that aborts the whole tool node: the unresolved call is
never invoked (so never retried), no later call executes, and the
already-generated report text is not installed as finalReport. -/
theorem unresolved_tool_name_aborts_tool_node
    (gw : Gateways) (s : AgentState) (m : AIMessage)
    (pre post : List ToolCall) (c : ToolCall)
    (hfr : s.final_report = some (ReportValue.msg m))
    (hcalls : m.tool_calls = pre ++ c :: post)
    (hpre : ∀ c' ∈ pre, ∃ t' o,
      tools_by_name gw.get_tools c'.name = some t' ∧ t'.ainvoke c'.args = Except.ok o)
    (hl : tools_by_name gw.get_tools c.name = none) :
    (final_report_tools gw s).2 = Except.error (ReportError.keyError c.name) ∧
    (final_report_tools gw s).1 = Event.getTools ::
      pre.map (fun c' => Event.invoke c'.name c'.args) := by
  have hloop := invoke_loop_key_error (tools_by_name gw.get_tools) pre c post hpre hl
  have hmt : m.tool_calls.isEmpty = false := by simp [hcalls]
  constructor
  · simp [final_report_tools, hfr, hmt, execute_tools, hcalls, hloop, Except.map]
  · simp [final_report_tools, hfr, hmt, execute_tools, hcalls, hloop]

/-- Witness for the amended C4 at a concrete input. -/
theorem unresolved_tool_name_witness :
    (final_report_tools wgw_unresolved wstate_unresolved_turn).2 =
      Except.error (ReportError.keyError "save_file") ∧
    (final_report_tools wgw_unresolved wstate_unresolved_turn).1 = [Event.getTools] := by
  have h := unresolved_tool_name_aborts_tool_node wgw_unresolved wstate_unresolved_turn
    wmsg_unresolved [] [] ⟨"save_file", "argsA", "call1"⟩
    rfl rfl (by intro c' hc'; simp at hc') rfl
  exact ⟨h.1, h.2⟩

/-- C5: the report stage performs exactly one generation round — every
run's event trace contains exactly one model invocation, the step
relation of the report subgraph goes from the tool node only to END
(never back to the generation node), and any completed run's final
report body is the text content of the single generated turn, whether or
not that turn carried tool calls. -/
theorem report_stage_single_generation_round
    (gw : Gateways) (s s' : AgentState) (r : RNode × AgentState) :
    (run_report gw s).1.count Event.generate = 1 ∧
    (report_step gw RNode.tools s' = Except.ok (some r) → r.1 = RNode.done) ∧
    (∀ s2, (run_report gw s).2.2 = Except.ok s2 →
      s2.final_report.map reportText = some (gen_message gw s).content) := by
  refine ⟨?_, ?_, ?_⟩
  · rw [run_report_events]
    have hng := generate_not_in_tool_node_events gw (applyCommand s (final_report_generation gw s).2)
    simp [List.count_cons, List.count_eq_zero.mpr hng]
  · intro hstep
    cases h : (final_report_tools gw s').2 with
    | error e => simp [report_step, h, Except.map] at hstep
    | ok c =>
      have hg := final_report_tools_goto gw s' c h
      simp [report_step, h, Except.map] at hstep
      rw [← hstep, hg]
      rfl
  · intro s2 h2
    simp only [run_report] at h2
    cases h : (final_report_tools gw (applyCommand s (final_report_generation gw s).2)).2 with
    | error e => rw [h] at h2; simp at h2
    | ok c2 =>
      rw [h] at h2
      simp only at h2
      have hs2 : s2 = applyCommand (applyCommand s (final_report_generation gw s).2) c2 := by
        cases h2; rfl
      have hs1 : (applyCommand s (final_report_generation gw s).2).final_report
          = some (ReportValue.msg (gen_message gw s)) := by
        simp [applyCommand, final_report_generation]
      rcases final_report_tools_ok_cases gw _ c2 h with hnone | ⟨m, hm, _, hset⟩
      · rw [hs2, applyCommand_final_report_none _ _ hnone, hs1]
        simp [reportText]
      · rw [hs1] at hm
        have hmeq : m = gen_message gw s :=
          (ReportValue.msg.inj (Option.some.inj hm)).symm
        rw [hs2, applyCommand_final_report_some _ _ _ hset, hmeq]
        simp [reportText]

/-- Witness for C5 at a concrete input: one generate event, tool node
steps to END, and the completed run's report body is the generated
turn's text. -/
theorem report_single_round_witness :
    (run_report wgw_two_calls wstate_briefed).1.count Event.generate = 1 ∧
    wstate_after_report.final_report.map reportText =
      some (gen_message wgw_two_calls wstate_briefed).content := by
  have h := report_stage_single_generation_round wgw_two_calls wstate_briefed
    wstate_briefed (RNode.done, wstate_briefed)
  exact ⟨h.1, h.2.2 wstate_after_report rfl⟩

/-- C6: when the generated turn carries no tool calls the report stage
terminates immediately: the run's whole event trace is the tool-list
fetch and the single model call that produced the turn (nothing after
it), and the final report text equals that turn's content. -/
theorem no_tool_calls_short_circuits
    (gw : Gateways) (s : AgentState)
    (h : (gen_message gw s).tool_calls = []) :
    (run_report gw s).1 = [Event.getTools, Event.generate] ∧
    ∃ s2, (run_report gw s).2.2 = Except.ok s2 ∧
      s2.final_report.map reportText = some (gen_message gw s).content := by
  have hs1 : (applyCommand s (final_report_generation gw s).2).final_report
      = some (ReportValue.msg (gen_message gw s)) := by
    simp [applyCommand, final_report_generation]
  have hfrt : final_report_tools gw (applyCommand s (final_report_generation gw s).2)
      = ([], Except.ok ⟨"__end__", none, []⟩) := by
    rw [final_report_tools, hs1]
    simp [h]
  constructor
  · rw [run_report_events, hfrt]
  · refine ⟨applyCommand (applyCommand s (final_report_generation gw s).2)
      ⟨"__end__", none, []⟩, ?_, ?_⟩
    · simp only [run_report]
      rw [hfrt]
    · rw [applyCommand_final_report_none _ _ rfl, hs1]
      simp [reportText]

/-- Witness for C6 at a concrete input: a turn with no tool calls. -/
theorem no_tool_calls_witness :
    (run_report wgw_plain wstate_briefed).1 = [Event.getTools, Event.generate] ∧
    ∃ s2, (run_report wgw_plain wstate_briefed).2.2 = Except.ok s2 ∧
      s2.final_report.map reportText =
        some (gen_message wgw_plain wstate_briefed).content :=
  no_tool_calls_short_circuits wgw_plain wstate_briefed rfl

/-- C7 counterexample: in a run whose generated turn carries tool calls,
the report stage writes finalReport twice (first the assistant message,
then its text), so "assigned at most once" fails on the code. -/
theorem final_report_double_write_counterexample :
    (fr_writes (run_report wgw_two_calls wstate_briefed).2.1).length = 2 :=
  rfl

/-- C7 amended: within the report stage, finalReport is written only by
its two nodes and at most twice per run: the generation node always
writes the assistant message, and the tool node writes the message's
text a second time exactly when the turn carries tool calls and their
execution succeeds. -/
theorem final_report_write_discipline (gw : Gateways) (s : AgentState) :
    fr_writes (run_report gw s).2.1 = [ReportValue.msg (gen_message gw s)] ∨
    ((gen_message gw s).tool_calls ≠ [] ∧
      fr_writes (run_report gw s).2.1 =
        [ReportValue.msg (gen_message gw s),
          ReportValue.text (gen_message gw s).content]) := by
  simp only [run_report]
  cases h : (final_report_tools gw (applyCommand s (final_report_generation gw s).2)).2 with
  | error e => left; simp [fr_writes, final_report_generation]
  | ok c2 =>
    have hs1 : (applyCommand s (final_report_generation gw s).2).final_report
        = some (ReportValue.msg (gen_message gw s)) := by
      simp [applyCommand, final_report_generation]
    rcases final_report_tools_ok_cases gw _ c2 h with hnone | ⟨m, hm, hmne, hset⟩
    · left; simp [fr_writes, final_report_generation, hnone]
    · right
      rw [hs1] at hm
      have hmeq : m = gen_message gw s :=
        (ReportValue.msg.inj (Option.some.inj hm)).symm
      subst hmeq
      exact ⟨hmne, by simp [fr_writes, final_report_generation, hset]⟩

theorem slot_notes_of_mem (threads : List ResearchThread) (order : List Nat) (i : Nat)
    (h : i ∈ order) :
    slot_notes (arrivals threads order) i =
      (threads[i]?.map ResearchThread.run_notes).getD [] := by
  induction order with
  | nil => simp at h
  | cons j rest ih =>
    rcases List.mem_cons.mp h with rfl | hi
    · simp [arrivals, slot_notes]
    · by_cases hij : j = i
      · subst hij
        simp [arrivals, slot_notes]
      · have hrest := ih hi
        simp only [arrivals, List.map_cons, slot_notes, List.find?_cons] at hrest ⊢
        have hb : (j == i) = false := by simp [hij]
        rw [hb]
        exact hrest

theorem range_map_getD {α β : Type} (l : List α) (g : α → β) (d : β) :
    (List.range l.length).map (fun i => ((l[i]?).map g).getD d) = l.map g := by
  induction l with
  | nil => rfl
  | cons a as ih =>
    rw [List.length_cons, List.range_succ_eq_map]
    simp only [List.map_cons, List.map_map, List.getElem?_cons_zero,
      Option.map_some', Option.getD_some]
    refine congrArg₂ List.cons rfl ?_
    refine (List.map_congr_left ?_).trans ih
    intro i _
    simp [Function.comp, List.getElem?_cons_succ]

/-- C8: the merged notes sequence equals the concatenation of the
threads' note sequences in dispatch order, for every completion
schedule that delivers each dispatched thread (the barrier), so the
merge result is independent of completion order. -/
theorem merge_is_dispatch_order (threads : List ResearchThread) (order : List Nat)
    (hall : ∀ i < threads.length, i ∈ order) :
    supervise_merge threads order = (threads.map ResearchThread.run_notes).flatten := by
  unfold supervise_merge
  have hmap : (List.range threads.length).map (slot_notes (arrivals threads order)) =
      (List.range threads.length).map
        (fun i => ((threads[i]?).map ResearchThread.run_notes).getD []) :=
    List.map_congr_left
      (fun i hi => slot_notes_of_mem threads order i (hall i (List.mem_range.mp hi)))
  rw [hmap, range_map_getD]

/-- Witness for C8: three threads whose completion order (T2, T3, T1)
differs from dispatch order still merge as T1.notes ++ T2.notes ++
T3.notes. -/
theorem merge_dispatch_order_witness :
    supervise_merge wthreads [1, 2, 0] = ["a", "b", "c", "d"] :=
  (merge_is_dispatch_order wthreads [1, 2, 0] (by decide)).trans rfl

/-- C10: `init_chat_model_from_env` never propagates a first- or
second-level initialization failure: any error it returns is the error
of the hard-coded final `init_chat_model("openai:gpt-4o")` call, and
whenever that final call would succeed the function returns some model
object. -/
theorem init_model_swallows_first_two_failures
    (getenv : String → Option String) (ic : String → Except String ChatModel)
    (oa : Bool) (env_var fallback_model : String) :
    (∀ e, init_chat_model_from_env getenv ic oa env_var fallback_model = Except.error e →
      ic "openai:gpt-4o" = Except.error e) ∧
    (∀ m, ic "openai:gpt-4o" = Except.ok m →
      ∃ m2, init_chat_model_from_env getenv ic oa env_var fallback_model = Except.ok m2) := by
  simp only [init_chat_model_from_env]
  cases h1 : try_init ic oa ((getenv env_var).getD fallback_model) with
  | ok m =>
    exact ⟨fun e he => absurd he (by simp), fun m' _ => ⟨m, rfl⟩⟩
  | error e1 =>
    cases h2 : try_init ic oa fallback_model with
    | ok m =>
      exact ⟨fun e he => absurd he (by simp), fun m' _ => ⟨m, rfl⟩⟩
    | error e2 =>
      exact ⟨fun e he => he, fun m hm => ⟨m, hm⟩⟩

/-- Witness for C10: with a malformed configured string and an
`init_chat_model` backend that always raises, the returned error is
exactly the final hard-coded call's error. -/
theorem init_model_fallback_witness :
    wic_boom "openai:gpt-4o" = Except.error "boom" ∧
    init_chat_model_from_env (fun _ => some "garbage") wic_boom true
      "REPORT_MODEL" "openai:gpt-4o" = Except.error "boom" :=
  ⟨(init_model_swallows_first_two_failures (fun _ => some "garbage") wic_boom true
      "REPORT_MODEL" "openai:gpt-4o").1 "boom" rfl, rfl⟩

end LocalResearch
